import Mathlib

/-!
Formal model of the Argus telemetry / regression-detection core.

The development shallowly embeds the engine components:

* the event data model (`ingestion/event_schema.py`),
* the detector state machine (`detection/detector.py`),
* the hot store latency query (`storage/hot_store.py`),
* the Parquet cold archive (`storage/cold_store.py`),
* the baseline engine (`detection/baseline.py`) together with the
  baseline table upsert of `storage/knowledge_graph.py`.

Floating-point metrics are modelled as rationals, timestamps as seconds
since the epoch (natural numbers).  Per-endpoint reads that the detector
performs against the hot store and the baseline model are abstracted as a
`Reading` record (the values those reads return), and a read that raises
is modelled as `Option.none`.
-/

namespace Argus

/-! ### Configuration constants (config.py) -/

/-- config.ANOMALY_THRESHOLD: anomaly score above which a reading counts
as a strike. -/
def ANOMALY_THRESHOLD : ℚ := 3

/-- config.CONSECUTIVE_STRIKES: consecutive anomalous readings needed to
confirm a regression. -/
def CONSECUTIVE_STRIKES : Nat := 3

/-! ### Event data model (ingestion/event_schema.py, EventSchema) -/

/-- One telemetry Event Record.  `error_message` is optional in the
schema (`Optional[str] = None`); all other fields are required.  The
same type is used for rows read back from the cold archive, whose
`error_message` column is a non-null string (modelled as `some _`). -/
structure EventSchema where
  timestamp : Nat
  endpoint : String
  method : String
  status_code : Int
  latency_ms : ℚ
  db_query_count : Int
  db_query_time_ms : ℚ
  user_id : String
  session_id : String
  memory_mb : ℚ
  commit_sha : String
  error_message : Option String
deriving DecidableEq

/-- The Regression Signal built by `Detector._fire_regression`.  The
fields drawn from the hot store at confirmation time (suspect commit,
affected user ids, timestamps) are outside the scoring state machine and
are not modelled. -/
structure RegressionEvent where
  affected_endpoint : String
  anomaly_score : ℚ
  latency_before_ms : ℚ
  latency_after_ms : ℚ
  query_count_before : ℚ
  query_count_after : ℚ
deriving DecidableEq

/-! ### Detector (detection/detector.py) -/

/-- The values one poll of `Detector._check_endpoint` obtains for an
endpoint: the hot-store window averages and the current baseline. -/
structure Reading where
  current_latency : ℚ
  current_queries : ℚ
  baseline_latency : ℚ
  baseline_queries : ℚ
deriving DecidableEq

/-- Process-local detector state: the per-endpoint strike map
(`self.strikes`, `.get(endpoint, 0)` semantics, so a total function with
default 0) and the suppression set `self.active_incidents` (a Python
set, modelled as a list up to membership). -/
structure DetectorState where
  strikes : String → Nat
  active_incidents : List String

/-- Pointwise update of the strike map (`self.strikes[endpoint] = n`). -/
def setStrikes (s : String → Nat) (e : String) (n : Nat) : String → Nat :=
  fun x => if x = e then n else s x

/-- Detector._compute_anomaly_score: ratio-based scoring, 0 when the
baseline is 0. -/
def compute_anomaly_score (current baseline : ℚ) : ℚ :=
  if baseline = 0 then 0 else current / baseline

/-- The anomaly score `_check_endpoint` derives from one reading: the
worse of the latency and query-count ratios. -/
def scoreOf (r : Reading) : ℚ :=
  max (compute_anomaly_score r.current_latency r.baseline_latency)
    (compute_anomaly_score r.current_queries r.baseline_queries)

/-- Detector._fire_regression: add the endpoint to the suppression set,
reset its strikes to 0, and emit one RegressionEvent.  Parameter order
follows the source (`latency_after` is the current value,
`latency_before` the baseline). -/
def fire_regression (st : DetectorState) (e : String)
    (anomaly_score latency_after latency_before queries_after queries_before : ℚ) :
    DetectorState × List RegressionEvent :=
  (⟨setStrikes st.strikes e 0, st.active_incidents.insert e⟩,
    [⟨e, anomaly_score, latency_before, latency_after, queries_before, queries_after⟩])

/-- Detector._check_endpoint: the 3-strikes rule for one endpoint, given
the values `r` its hot-store/baseline reads returned.  Returns the new
state and the signals emitted (none or one). -/
def check_endpoint (st : DetectorState) (e : String) (r : Reading) :
    DetectorState × List RegressionEvent :=
  if r.current_latency = 0 then (st, [])
  else if ANOMALY_THRESHOLD < scoreOf r then
    if CONSECUTIVE_STRIKES ≤ st.strikes e + 1 then
      fire_regression ⟨setStrikes st.strikes e (st.strikes e + 1), st.active_incidents⟩ e
        (scoreOf r) r.current_latency r.baseline_latency r.current_queries r.baseline_queries
    else (⟨setStrikes st.strikes e (st.strikes e + 1), st.active_incidents⟩, [])
  else (⟨setStrikes st.strikes e 0, st.active_incidents⟩, [])

/-- One endpoint's treatment inside `Detector._detection_loop`: endpoints
in the suppression set are skipped before `_check_endpoint` runs. -/
def poll_endpoint (st : DetectorState) (e : String) (r : Reading) :
    DetectorState × List RegressionEvent :=
  if e ∈ st.active_incidents then (st, []) else check_endpoint st e r

/-- Detector.mark_resolved: discard from the suppression set and reset
the strike count. -/
def mark_resolved (st : DetectorState) (e : String) : DetectorState :=
  ⟨setStrikes st.strikes e 0, st.active_incidents.filter (fun x => x ≠ e)⟩

/-- One cycle of `Detector._detection_loop` over the endpoint list, with
`read e = none` modelling an exception while reading the hot store or
baseline for `e`.  The `try` block wraps the whole `for` loop, so an
exception aborts the remainder of the cycle (it is caught and logged
outside the loop, and the next cycle runs).  Returns the final state,
the emitted signals, and the endpoints `_check_endpoint` completed on. -/
def detection_cycle (read : String → Option Reading) :
    DetectorState → List String → DetectorState × List RegressionEvent × List String
  | st, [] => (st, [], [])
  | st, e :: rest =>
    if e ∈ st.active_incidents then detection_cycle read st rest
    else
      match read e with
      | none => (st, [], [])
      | some r =>
        let p := check_endpoint st e r
        let q := detection_cycle read p.1 rest
        (q.1, p.2 ++ q.2.1, e :: q.2.2)

/-! ### Hot store (storage/hot_store.py) -/

/-- The rows selected by `HotStore.get_recent_latency`: same endpoint,
timestamp inside the trailing window, status code below 500. -/
def latencyRows (events : List EventSchema) (endpoint : String) (now minutes : Nat) :
    List EventSchema :=
  events.filter fun ev =>
    ev.endpoint = endpoint ∧ now - minutes * 60 < ev.timestamp ∧ ev.status_code < 500

/-- HotStore.get_recent_latency: SQL `AVG` over the selected rows is NULL
when no row matches; the Python wrapper `result[0] if result[0] else 0.0`
turns both NULL and a falsy 0.0 average into 0.0. -/
def get_recent_latency (events : List EventSchema) (endpoint : String) (now minutes : Nat) :
    ℚ :=
  let rows := latencyRows events endpoint now minutes
  let avg : Option ℚ :=
    if rows.isEmpty then none else some ((rows.map (·.latency_ms)).sum / rows.length)
  match avg with
  | none => 0
  | some v => if v = 0 then 0 else v

/-! ### Cold archive (storage/cold_store.py) -/

/-- The archive contents: one entry per Parquet file, tagged with the
hour partition (directory) it lives in, in write order. -/
abbrev ColdStoreData : Type := List (Nat × List EventSchema)

/-- The hour partition an event is grouped into by `ColdStore.flush` via
`_get_partition_path(event.timestamp)`: hour granularity of the
`year=/month=/day=/hour=` path. -/
def partitionKeyOf (e : EventSchema) : Nat := e.timestamp / 3600

/-- Row conversion in `ColdStore._write_partition`: every column is
copied verbatim except `error_message`, written as
`e.error_message or ""` into a non-null string column. -/
def writeRow (e : EventSchema) : EventSchema :=
  { e with error_message := some (e.error_message.getD "") }

/-- First-occurrence deduplication, the key order of a Python dict built
by insertion. -/
def dedupFirst {α : Type} [DecidableEq α] : List α → List α
  | [] => []
  | k :: ks => k :: (dedupFirst ks).filter (fun x => x ≠ k)

/-- ColdStore.flush: group the batch by hour partition and append one new
immutable file per partition (filenames are collision-free, so a write
never replaces an existing file). -/
def flush (store : ColdStoreData) (events : List EventSchema) : ColdStoreData :=
  if events.isEmpty then store
  else
    store ++ (dedupFirst (events.map partitionKeyOf)).map fun k =>
      (k, (events.filter fun e => partitionKeyOf e = k).map writeRow)

/-- The files living in one hour-partition directory. -/
def filesAt (store : ColdStoreData) (k : Nat) : List (List EventSchema) :=
  (store.filter fun p => p.1 = k).map fun p => p.2

/-- The partition keys `ColdStore.read_historical` visits: for each
`hours_ago in range(hours_back)` the partition of
`now - hours_ago * 3600`. -/
def hoursScanned (now hours_back : Nat) : List Nat :=
  (List.range hours_back).map fun hours_ago => (now - hours_ago * 3600) / 3600

/-- ColdStore.read_historical: read every Parquet file in the visited
partitions, filtering rows to the requested endpoint. -/
def read_historical (store : ColdStoreData) (endpoint : String) (now hours_back : Nat) :
    List EventSchema :=
  (hoursScanned now hours_back).flatMap fun k =>
    (filesAt store k).flatMap fun file => file.filter fun row => row.endpoint = endpoint

/-! ### Baseline engine (detection/baseline.py, storage/knowledge_graph.py) -/

/-- One row of the `baselines` table (the metrics
`BaselineEngine.compute_baseline` upserts). -/
structure BaselineMetrics where
  avg_latency_ms : ℚ
  p95_latency_ms : ℚ
  avg_query_count : ℚ
  sample_size : Nat
deriving DecidableEq

/-- The `baselines` table, keyed by (endpoint, hour_of_day, day_of_week);
`UNIQUE` on the key, so a partial map. -/
abbrev Baselines : Type := String × Nat × Nat → Option BaselineMetrics

/-- KnowledgeGraph.update_baseline: `INSERT ... ON CONFLICT DO UPDATE`,
an upsert of the single row at the key. -/
def update_baseline (kg : Baselines) (endpoint : String) (hour day_of_week : Nat)
    (m : BaselineMetrics) : Baselines :=
  fun q => if q = (endpoint, hour, day_of_week) then some m else kg q

/-- Hour of day of a timestamp (datetime.hour). -/
def hourOfDay (t : Nat) : Nat := t / 3600 % 24

/-- Day of week of a timestamp (datetime.weekday(), Monday = 0; the epoch
fell on a Thursday). -/
def weekdayOf (t : Nat) : Nat := (t / 86400 + 3) % 7

/-- The grouping key `(ts.hour, ts.weekday())` used by
`compute_baseline`. -/
def groupKey (e : EventSchema) : Nat × Nat :=
  (hourOfDay e.timestamp, weekdayOf e.timestamp)

/-- The latencies accumulated for one (hour, weekday) group, in
traversal order. -/
def groupLatencies (hist : List EventSchema) (k : Nat × Nat) : List ℚ :=
  (hist.filter fun ev => groupKey ev = k).map (·.latency_ms)

/-- The query counts accumulated for one (hour, weekday) group. -/
def groupQueryCounts (hist : List EventSchema) (k : Nat × Nat) : List ℚ :=
  (hist.filter fun ev => groupKey ev = k).map fun ev => (ev.db_query_count : ℚ)

/-- statistics.mean. -/
def mean (l : List ℚ) : ℚ := l.sum / l.length

/-- The nearest-rank index `int(len(latencies) * 0.95)`. -/
def p95_index (n : Nat) : Nat := (⌊(n : ℚ) * (95 / 100)⌋).toNat

/-- The stored 95th percentile: sort ascending, take the nearest-rank
index (`sorted` is a stable ascending sort). -/
def p95 (latencies : List ℚ) : ℚ :=
  (List.insertionSort (fun a b => a ≤ b) latencies).getD (p95_index latencies.length) 0

/-- The metrics row computed for one group. -/
def groupMetrics (hist : List EventSchema) (k : Nat × Nat) : BaselineMetrics :=
  ⟨mean (groupLatencies hist k), p95 (groupLatencies hist k),
    mean (groupQueryCounts hist k), (groupLatencies hist k).length⟩

/-- The conservative default metrics written when no usable history
exists. -/
def DEFAULT_BASELINE : BaselineMetrics := ⟨50, 100, 3, 0⟩

/-- BaselineEngine._set_default_baseline: write the defaults at the
current (hour, weekday) key. -/
def set_default_baseline (kg : Baselines) (endpoint : String) (now : Nat) : Baselines :=
  update_baseline kg endpoint (hourOfDay now) (weekdayOf now) DEFAULT_BASELINE

/-- BaselineEngine.compute_baseline on the historical records read for
the endpoint: fall back to defaults below 50 records, otherwise group by
(hour, weekday) and upsert one row per group of at least 5 samples
(groups are visited in dict insertion order, i.e. first occurrence). -/
def compute_baseline (kg : Baselines) (endpoint : String) (hist : List EventSchema)
    (now : Nat) : Baselines :=
  if hist.length < 50 then set_default_baseline kg endpoint now
  else
    (dedupFirst (hist.map groupKey)).foldl
      (fun kg2 k =>
        if (groupLatencies hist k).length < 5 then kg2
        else update_baseline kg2 endpoint k.1 k.2 (groupMetrics hist k))
      kg

/-! ### Basic lemmas about the detector state machine -/

lemma setStrikes_same (s : String → Nat) (e : String) (n : Nat) : setStrikes s e n e = n := by
  simp [setStrikes]

lemma setStrikes_other (s : String → Nat) (e : String) (n : Nat) (x : String) (h : x ≠ e) :
    setStrikes s e n x = s x := by
  simp [setStrikes, h]

lemma setStrikes_setStrikes (s : String → Nat) (e : String) (m n : Nat) :
    setStrikes (setStrikes s e m) e n = setStrikes s e n := by
  funext x
  by_cases h : x = e <;> simp [setStrikes, h]

lemma check_endpoint_nodata (st : DetectorState) (e : String) (r : Reading)
    (hl : r.current_latency = 0) : check_endpoint st e r = (st, []) := by
  unfold check_endpoint
  rw [if_pos hl]

lemma check_endpoint_reset (st : DetectorState) (e : String) (r : Reading)
    (hl : r.current_latency ≠ 0) (hs : ¬ ANOMALY_THRESHOLD < scoreOf r) :
    check_endpoint st e r = (⟨setStrikes st.strikes e 0, st.active_incidents⟩, []) := by
  unfold check_endpoint
  rw [if_neg hl, if_neg hs]

lemma check_endpoint_strike (st : DetectorState) (e : String) (r : Reading)
    (hl : r.current_latency ≠ 0) (hs : ANOMALY_THRESHOLD < scoreOf r)
    (hn : st.strikes e + 1 < CONSECUTIVE_STRIKES) :
    check_endpoint st e r =
      (⟨setStrikes st.strikes e (st.strikes e + 1), st.active_incidents⟩, []) := by
  unfold check_endpoint
  rw [if_neg hl, if_pos hs, if_neg (not_le.mpr hn)]

lemma check_endpoint_fire (st : DetectorState) (e : String) (r : Reading)
    (hl : r.current_latency ≠ 0) (hs : ANOMALY_THRESHOLD < scoreOf r)
    (hn : CONSECUTIVE_STRIKES ≤ st.strikes e + 1) :
    check_endpoint st e r =
      (⟨setStrikes st.strikes e 0, st.active_incidents.insert e⟩,
        [⟨e, scoreOf r, r.baseline_latency, r.current_latency,
          r.baseline_queries, r.current_queries⟩]) := by
  unfold check_endpoint fire_regression
  rw [if_neg hl, if_pos hs, if_pos hn]
  simp [setStrikes_setStrikes]

lemma poll_endpoint_active (st : DetectorState) (e : String) (r : Reading)
    (h : e ∈ st.active_incidents) : poll_endpoint st e r = (st, []) := by
  unfold poll_endpoint
  rw [if_pos h]

lemma poll_endpoint_not_active (st : DetectorState) (e : String) (r : Reading)
    (h : e ∉ st.active_incidents) : poll_endpoint st e r = check_endpoint st e r := by
  unfold poll_endpoint
  rw [if_neg h]

/-! ### C1: three strikes confirm exactly once; suppression freezes the endpoint -/

/-- C1: starting from strike count 0 with the endpoint outside the
suppression set, three consecutive polls whose readings have data and an
anomaly score above the threshold take the endpoint through strike
counts 1 and 2 (no signal) and then confirm: exactly one Regression
Signal is emitted, the endpoint enters the suppression set, and its
strike count is reset.  While an endpoint is in the suppression set, a
poll emits nothing and leaves the state unchanged. -/
theorem detector_three_strikes_single_signal
    (st st' : DetectorState) (e : String) (r1 r2 r3 r' : Reading)
    (h0 : st.strikes e = 0) (ha : e ∉ st.active_incidents)
    (hl1 : r1.current_latency ≠ 0) (hs1 : ANOMALY_THRESHOLD < scoreOf r1)
    (hl2 : r2.current_latency ≠ 0) (hs2 : ANOMALY_THRESHOLD < scoreOf r2)
    (hl3 : r3.current_latency ≠ 0) (hs3 : ANOMALY_THRESHOLD < scoreOf r3)
    (hsup : e ∈ st'.active_incidents) :
    (poll_endpoint st e r1).2 = [] ∧
    (poll_endpoint st e r1).1.strikes e = 1 ∧
    e ∉ (poll_endpoint st e r1).1.active_incidents ∧
    (poll_endpoint (poll_endpoint st e r1).1 e r2).2 = [] ∧
    (poll_endpoint (poll_endpoint st e r1).1 e r2).1.strikes e = 2 ∧
    e ∉ (poll_endpoint (poll_endpoint st e r1).1 e r2).1.active_incidents ∧
    (poll_endpoint (poll_endpoint (poll_endpoint st e r1).1 e r2).1 e r3).2.length = 1 ∧
    e ∈ (poll_endpoint (poll_endpoint (poll_endpoint st e r1).1 e r2).1 e r3).1.active_incidents ∧
    (poll_endpoint (poll_endpoint (poll_endpoint st e r1).1 e r2).1 e r3).1.strikes e = 0 ∧
    poll_endpoint st' e r' = (st', []) := by
  have e1 : poll_endpoint st e r1 =
      (⟨setStrikes st.strikes e 1, st.active_incidents⟩, []) := by
    rw [poll_endpoint_not_active st e r1 ha,
      check_endpoint_strike st e r1 hl1 hs1 (by unfold CONSECUTIVE_STRIKES; omega), h0]
  have e2 : poll_endpoint (⟨setStrikes st.strikes e 1, st.active_incidents⟩ : DetectorState) e r2 =
      (⟨setStrikes st.strikes e 2, st.active_incidents⟩, []) := by
    rw [poll_endpoint_not_active ⟨setStrikes st.strikes e 1, st.active_incidents⟩ e r2 ha,
      check_endpoint_strike _ _ _ hl2 hs2 (by simp only [setStrikes_same]; decide)]
    simp only [setStrikes_same, setStrikes_setStrikes]
  have e3 : poll_endpoint (⟨setStrikes st.strikes e 2, st.active_incidents⟩ : DetectorState) e r3 =
      (⟨setStrikes st.strikes e 0, st.active_incidents.insert e⟩,
        [⟨e, scoreOf r3, r3.baseline_latency, r3.current_latency,
          r3.baseline_queries, r3.current_queries⟩]) := by
    rw [poll_endpoint_not_active ⟨setStrikes st.strikes e 2, st.active_incidents⟩ e r3 ha,
      check_endpoint_fire _ _ _ hl3 hs3 (by simp only [setStrikes_same]; decide)]
    simp only [setStrikes_setStrikes]
  refine ⟨?_, ?_, ?_, ?_, ?_, ?_, ?_, ?_, ?_, ?_⟩ <;>
    simp [e1, e2, e3, setStrikes_same, ha, List.mem_insert_iff,
      poll_endpoint_active st' e r' hsup]

/-- Initial detector state used in the C1 witness. -/
def stC1 : DetectorState := ⟨fun _ => 0, []⟩

/-- A suppressed-state instance used in the C1 witness. -/
def stC1sup : DetectorState := ⟨fun _ => 0, ["/checkout"]⟩

/-- An anomalous reading (latency 60 against baseline 12, score 5). -/
def rC1 : Reading := ⟨60, 3, 12, 3⟩

theorem detector_three_strikes_single_signal_witness :
    (poll_endpoint (poll_endpoint (poll_endpoint stC1 "/checkout" rC1).1 "/checkout" rC1).1
      "/checkout" rC1).2.length = 1 ∧
    poll_endpoint stC1sup "/checkout" rC1 = (stC1sup, []) := by
  have hl : rC1.current_latency ≠ 0 := by norm_num [rC1]
  have hs : ANOMALY_THRESHOLD < scoreOf rC1 := by
    rw [scoreOf, max_def]
    norm_num [rC1, compute_anomaly_score, ANOMALY_THRESHOLD]
  have h := detector_three_strikes_single_signal stC1 stC1sup "/checkout" rC1 rC1 rC1 rC1
    rfl (by simp [stC1]) hl hs hl hs hl hs (by simp [stC1sup])
  exact ⟨h.2.2.2.2.2.2.1, h.2.2.2.2.2.2.2.2.2⟩

/-! ### C2: resolve on a non-suppressed endpoint; idempotence -/

/-- State with two strikes on `/a` and an empty suppression set, used to
refute the claim that resolve leaves the strike count unchanged. -/
def stC2 : DetectorState := ⟨fun x => if x = "/a" then 2 else 0, []⟩

/-- C2 counterexample: `/a` is not in the suppression set, yet
`mark_resolved` changes its strike count (from 2 to 0), so resolve on a
non-suppressed endpoint is not a no-op on the detector state. -/
theorem mark_resolved_not_noop_counterexample :
    "/a" ∉ stC2.active_incidents ∧
    (mark_resolved stC2 "/a").strikes "/a" ≠ stC2.strikes "/a" := by
  constructor
  · simp [stC2]
  · decide

/-- C2 (amended): for an endpoint not in the suppression set, resolve
leaves the suppression set and every other endpoint's strike count
unchanged and resets that endpoint's strike count to 0 (so it is a no-op
exactly when that count is already 0, and never an error); and resolving
any endpoint twice has the same effect as resolving it once. -/
theorem mark_resolved_amended (st : DetectorState) (e f x : String)
    (he : e ∉ st.active_incidents) (hx : x ≠ e) :
    (mark_resolved st e).active_incidents = st.active_incidents ∧
    (mark_resolved st e).strikes e = 0 ∧
    (mark_resolved st e).strikes x = st.strikes x ∧
    mark_resolved (mark_resolved st f) f = mark_resolved st f := by
  refine ⟨?_, setStrikes_same _ _ _, setStrikes_other _ _ _ _ hx, ?_⟩
  · show st.active_incidents.filter (fun y => y ≠ e) = st.active_incidents
    rw [List.filter_eq_self]
    intro a hamem
    simp only [ne_eq, decide_eq_true_eq]
    rintro rfl
    exact he hamem
  · show (⟨setStrikes (setStrikes st.strikes f 0) f 0,
        (st.active_incidents.filter (fun y => y ≠ f)).filter (fun y => y ≠ f)⟩ : DetectorState) =
      ⟨setStrikes st.strikes f 0, st.active_incidents.filter (fun y => y ≠ f)⟩
    rw [setStrikes_setStrikes, List.filter_eq_self.mpr]
    intro a hamem
    exact (List.mem_filter.mp hamem).2

theorem mark_resolved_amended_witness :
    (mark_resolved stC2 "/a").active_incidents = stC2.active_incidents ∧
    (mark_resolved stC2 "/a").strikes "/a" = 0 ∧
    (mark_resolved stC2 "/a").strikes "/b" = stC2.strikes "/b" ∧
    mark_resolved (mark_resolved stC2 "/c") "/c" = mark_resolved stC2 "/c" :=
  mark_resolved_amended stC2 "/a" "/c" "/b" (by simp [stC2]) (by decide)

/-! ### C10: endpoints under suppression always carry strike count 0 -/

/-- The invariant linking the strike map and the suppression set. -/
def StrikesInvariant (st : DetectorState) : Prop :=
  ∀ e ∈ st.active_incidents, st.strikes e = 0

/-- C10: the invariant that every endpoint in the suppression set has
strike count 0 is preserved by a detector poll of any endpoint (which
includes skipping suppressed endpoints and regression confirmation), by
`_fire_regression` itself, and by `mark_resolved`. -/
theorem strikes_invariant_preserved (st : DetectorState) (e f g : String) (r : Reading)
    (sc la lb qa qb : ℚ) (h : StrikesInvariant st) :
    StrikesInvariant (poll_endpoint st e r).1 ∧
    StrikesInvariant (fire_regression st g sc la lb qa qb).1 ∧
    StrikesInvariant (mark_resolved st f) := by
  have hfire : ∀ (st2 : DetectorState) (g2 : String) (sc2 la2 lb2 qa2 qb2 : ℚ),
      StrikesInvariant st2 →
      StrikesInvariant (fire_regression st2 g2 sc2 la2 lb2 qa2 qb2).1 := by
    intro st2 g2 sc2 la2 lb2 qa2 qb2 h2 x hx
    rcases List.mem_insert_iff.mp hx with hxg | hxa
    · subst hxg
      exact setStrikes_same _ _ _
    · by_cases hxg : x = g2
      · subst hxg
        exact setStrikes_same _ _ _
      · rw [show (fire_regression st2 g2 sc2 la2 lb2 qa2 qb2).1.strikes =
            setStrikes st2.strikes g2 0 from rfl, setStrikes_other _ _ _ _ hxg]
        exact h2 x hxa
  refine ⟨?_, hfire st g sc la lb qa qb h, ?_⟩
  · by_cases hact : e ∈ st.active_incidents
    · rw [poll_endpoint_active st e r hact]
      exact h
    · rw [poll_endpoint_not_active st e r hact]
      by_cases hl : r.current_latency = 0
      · rw [check_endpoint_nodata st e r hl]
        exact h
      · by_cases hs : ANOMALY_THRESHOLD < scoreOf r
        · by_cases hn : CONSECUTIVE_STRIKES ≤ st.strikes e + 1
          · rw [check_endpoint_fire st e r hl hs hn]
            have := hfire ⟨setStrikes st.strikes e (st.strikes e + 1), st.active_incidents⟩
              e (scoreOf r) r.current_latency r.baseline_latency r.current_queries
              r.baseline_queries
            intro x hx
            rcases List.mem_insert_iff.mp hx with hxe | hxa
            · subst hxe
              exact setStrikes_same _ _ _
            · by_cases hxe : x = e
              · subst hxe
                exact setStrikes_same _ _ _
              · rw [show (⟨setStrikes st.strikes e 0, st.active_incidents.insert e⟩ :
                    DetectorState).strikes = setStrikes st.strikes e 0 from rfl,
                  setStrikes_other _ _ _ _ hxe]
                exact h x hxa
          · rw [check_endpoint_strike st e r hl hs (by omega)]
            intro x hx
            have hxe : x ≠ e := fun hcon => hact (hcon ▸ hx)
            rw [show (⟨setStrikes st.strikes e (st.strikes e + 1), st.active_incidents⟩ :
                DetectorState).strikes = setStrikes st.strikes e (st.strikes e + 1) from rfl,
              setStrikes_other _ _ _ _ hxe]
            exact h x hx
        · rw [check_endpoint_reset st e r hl hs]
          intro x hx
          by_cases hxe : x = e
          · subst hxe
            exact setStrikes_same _ _ _
          · rw [show (⟨setStrikes st.strikes e 0, st.active_incidents⟩ :
                DetectorState).strikes = setStrikes st.strikes e 0 from rfl,
              setStrikes_other _ _ _ _ hxe]
            exact h x hx
  · intro x hx
    have hxa : x ∈ st.active_incidents := List.mem_of_mem_filter hx
    by_cases hxf : x = f
    · subst hxf
      exact setStrikes_same _ _ _
    · rw [show (mark_resolved st f).strikes = setStrikes st.strikes f 0 from rfl,
        setStrikes_other _ _ _ _ hxf]
      exact h x hxa

/-- Suppressed endpoint with zero strikes, used in the C10 witness. -/
def stC10 : DetectorState := ⟨fun _ => 0, ["/a"]⟩

/-- Reading used in the C10 witness. -/
def rC10 : Reading := ⟨60, 3, 12, 3⟩

theorem strikes_invariant_preserved_witness :
    StrikesInvariant (poll_endpoint stC10 "/a" rC10).1 ∧
    StrikesInvariant (mark_resolved stC10 "/a") :=
  have h := strikes_invariant_preserved stC10 "/a" "/a" "/b" rC10 5 60 12 3 3 (fun _ _ => rfl)
  ⟨h.1, h.2.2⟩

/-! ### C7: the anomaly score is total, ratio-based, and division-safe -/

/-- C7: on a poll, the detector's anomaly score is the maximum of the
latency ratio and the query-count ratio, where a ratio with baseline 0
is defined as 0 (so the score is total and never divides by zero); every
emitted Regression Signal carries exactly this score. -/
theorem anomaly_score_ratio_max (st : DetectorState) (e : String) (r : Reading)
    (sig : RegressionEvent) (hsig : sig ∈ (check_endpoint st e r).2) :
    scoreOf r =
      max (if r.baseline_latency = 0 then 0 else r.current_latency / r.baseline_latency)
        (if r.baseline_queries = 0 then 0 else r.current_queries / r.baseline_queries) ∧
    (r.baseline_latency = 0 →
      compute_anomaly_score r.current_latency r.baseline_latency = 0) ∧
    (r.baseline_queries = 0 →
      compute_anomaly_score r.current_queries r.baseline_queries = 0) ∧
    sig.anomaly_score = scoreOf r := by
  refine ⟨rfl, ?_, ?_, ?_⟩
  · intro hb
    simp [compute_anomaly_score, hb]
  · intro hb
    simp [compute_anomaly_score, hb]
  · by_cases hl : r.current_latency = 0
    · rw [check_endpoint_nodata st e r hl] at hsig
      simp at hsig
    · by_cases hs : ANOMALY_THRESHOLD < scoreOf r
      · by_cases hn : CONSECUTIVE_STRIKES ≤ st.strikes e + 1
        · rw [check_endpoint_fire st e r hl hs hn] at hsig
          rw [List.mem_singleton] at hsig
          rw [hsig]
        · rw [check_endpoint_strike st e r hl hs (by omega)] at hsig
          simp at hsig
      · rw [check_endpoint_reset st e r hl hs] at hsig
        simp at hsig

/-- State with two strikes everywhere, so the next anomalous poll
confirms; used in the C7 witness. -/
def stC7 : DetectorState := ⟨fun _ => 2, []⟩

/-- Reading used in the C7 witness (score 5). -/
def rC7 : Reading := ⟨60, 3, 12, 3⟩

/-- The signal fired from `stC7` on reading `rC7`. -/
def sigC7 : RegressionEvent :=
  ⟨"/checkout", scoreOf rC7, rC7.baseline_latency, rC7.current_latency,
    rC7.baseline_queries, rC7.current_queries⟩

theorem anomaly_score_ratio_max_witness : sigC7.anomaly_score = scoreOf rC7 :=
  (anomaly_score_ratio_max stC7 "/checkout" rC7 sigC7 (by
    rw [check_endpoint_fire stC7 "/checkout" rC7 (by norm_num [rC7])
      (by rw [scoreOf, max_def]; norm_num [rC7, compute_anomaly_score, ANOMALY_THRESHOLD])
      (by decide)]
    exact List.mem_singleton.mpr rfl)).2.2.2

/-! ### C3: a per-endpoint read failure aborts the rest of the cycle -/

/-- Membership in the suppression set after `_check_endpoint`: the only
endpoint it can add is the one being checked. -/
lemma check_endpoint_active_mem_iff (st : DetectorState) (e : String) (r : Reading)
    (x : String) (hx : x ≠ e) :
    x ∈ (check_endpoint st e r).1.active_incidents ↔ x ∈ st.active_incidents := by
  by_cases hl : r.current_latency = 0
  · rw [check_endpoint_nodata st e r hl]
  · by_cases hs : ANOMALY_THRESHOLD < scoreOf r
    · by_cases hn : CONSECUTIVE_STRIKES ≤ st.strikes e + 1
      · rw [check_endpoint_fire st e r hl hs hn]
        show x ∈ st.active_incidents.insert e ↔ x ∈ st.active_incidents
        rw [List.mem_insert_iff]
        simp [hx]
      · rw [check_endpoint_strike st e r hl hs (by omega)]
    · rw [check_endpoint_reset st e r hl hs]

/-- Reads used in the C3 counterexample: the read for endpoint `a`
raises, the read for endpoint `b` succeeds. -/
def readC3 : String → Option Reading :=
  fun e => if e = "b" then some ⟨60, 3, 12, 3⟩ else none

/-- Fresh detector state used in the C3 counterexample. -/
def stC3 : DetectorState := ⟨fun _ => 0, []⟩

/-- C3 counterexample: with endpoints `[a, b]`, a failure reading `a`
means `b` — readable and not suppressed — is not checked in that cycle,
refuting the claim that every other endpoint is still checked. -/
theorem cycle_failure_skips_rest_counterexample :
    (readC3 "b").isSome = true ∧
    "b" ∉ stC3.active_incidents ∧
    "b" ∉ (detection_cycle readC3 stC3 ["a", "b"]).2.2 := by
  refine ⟨rfl, by simp [stC3], ?_⟩
  have : detection_cycle readC3 stC3 ["a", "b"] = (stC3, [], []) := by
    show (if "a" ∈ stC3.active_incidents then detection_cycle readC3 stC3 ["b"]
      else match readC3 "a" with
        | none => (stC3, [], [])
        | some r =>
          let p := check_endpoint stC3 "a" r
          let q := detection_cycle readC3 p.1 ["b"]
          (q.1, p.2 ++ q.2.1, "a" :: q.2.2)) = (stC3, [], [])
    rw [if_neg (by simp [stC3])]
    rfl
  rw [this]
  simp

/-- C3 (amended): an exception while reading the hot store or baseline
for one endpoint is caught outside the `for` loop, so the cycle behaves
exactly as if the endpoint list were truncated just before the failing
endpoint: earlier endpoints are processed normally, the failing endpoint
and every endpoint after it are not checked in that cycle, and the loop
itself survives — a cycle whose reads all succeed checks exactly the
non-suppressed endpoints. -/
theorem cycle_failure_truncates_cycle (st st' : DetectorState)
    (read read' : String → Option Reading) (pre post eps : List String) (f : String)
    (hfa : f ∉ st.active_incidents) (hfp : f ∉ pre) (hfr : read f = none)
    (hok : ∀ x ∈ eps, (read' x).isSome) (hnd : eps.Nodup) :
    detection_cycle read st (pre ++ f :: post) = detection_cycle read st pre ∧
    (detection_cycle read' st' eps).2.2 =
      eps.filter (fun x => x ∉ st'.active_incidents) := by
  constructor
  · induction pre generalizing st with
    | nil =>
      simp only [List.nil_append]
      show (if f ∈ st.active_incidents then detection_cycle read st post
        else match read f with
          | none => (st, [], [])
          | some r =>
            let p := check_endpoint st f r
            let q := detection_cycle read p.1 post
            (q.1, p.2 ++ q.2.1, f :: q.2.2)) = (st, [], [])
      rw [if_neg hfa, hfr]
    | cons e rest ih =>
      have hfe : f ≠ e := fun hcon => hfp (hcon ▸ List.mem_cons_self e rest)
      have hfrest : f ∉ rest := fun hcon => hfp (List.mem_cons_of_mem e hcon)
      by_cases hea : e ∈ st.active_incidents
      · show (if e ∈ st.active_incidents then detection_cycle read st (rest ++ f :: post)
          else _) = (if e ∈ st.active_incidents then detection_cycle read st rest else _)
        rw [if_pos hea, if_pos hea]
        exact ih st hfa hfrest
      · show (if e ∈ st.active_incidents then detection_cycle read st (rest ++ f :: post)
          else match read e with
            | none => (st, [], [])
            | some r =>
              let p := check_endpoint st e r
              let q := detection_cycle read p.1 (rest ++ f :: post)
              (q.1, p.2 ++ q.2.1, e :: q.2.2)) =
          (if e ∈ st.active_incidents then detection_cycle read st rest
          else match read e with
            | none => (st, [], [])
            | some r =>
              let p := check_endpoint st e r
              let q := detection_cycle read p.1 rest
              (q.1, p.2 ++ q.2.1, e :: q.2.2))
        rw [if_neg hea, if_neg hea]
        cases hre : read e with
        | none => rfl
        | some r =>
          have hfa2 : f ∉ (check_endpoint st e r).1.active_incidents := fun hcon =>
            hfa ((check_endpoint_active_mem_iff st e r f hfe).mp hcon)
          simp only [ih (check_endpoint st e r).1 hfa2 hfrest]
  · induction eps generalizing st' with
    | nil => rfl
    | cons e rest ih =>
      have hok2 : ∀ x ∈ rest, (read' x).isSome := fun x hx =>
        hok x (List.mem_cons_of_mem e hx)
      have herest : e ∉ rest := (List.nodup_cons.mp hnd).1
      have hnd2 : rest.Nodup := (List.nodup_cons.mp hnd).2
      by_cases hea : e ∈ st'.active_incidents
      · show (if e ∈ st'.active_incidents then detection_cycle read' st' rest else _).2.2 = _
        rw [if_pos hea, ih st' hok2 hnd2]
        rw [List.filter_cons_of_neg (by simp [hea])]
      · cases hre : read' e with
        | none =>
          have := hok e (List.mem_cons_self e rest)
          rw [hre] at this
          simp at this
        | some r =>
          show (if e ∈ st'.active_incidents then detection_cycle read' st' rest
            else match read' e with
              | none => (st', [], [])
              | some r =>
                let p := check_endpoint st' e r
                let q := detection_cycle read' p.1 rest
                (q.1, p.2 ++ q.2.1, e :: q.2.2)).2.2 = _
          rw [if_neg hea, hre]
          simp only
          rw [ih (check_endpoint st' e r).1 hok2 hnd2]
          rw [List.filter_cons_of_pos (by simp [hea])]
          congr 1
          apply List.filter_congr
          intro x hx
          have hxe : x ≠ e := fun hcon => herest (hcon ▸ hx)
          simp only [decide_eq_decide]
          rw [check_endpoint_active_mem_iff st' e r x hxe]

/-- Reads used in the C3 witness: every endpoint readable. -/
def readC3ok : String → Option Reading := fun _ => some ⟨60, 3, 12, 3⟩

theorem cycle_failure_truncates_cycle_witness :
    detection_cycle readC3 stC3 (["c"] ++ "a" :: ["b"]) = detection_cycle readC3 stC3 ["c"] ∧
    (detection_cycle readC3ok stC3 ["a", "b"]).2.2 =
      ["a", "b"].filter (fun x => x ∉ stC3.active_incidents) :=
  cycle_failure_truncates_cycle stC3 stC3 readC3 readC3ok ["c"] ["b"] ["a", "b"] "a"
    (by simp [stC3]) (by decide) (by decide) (by decide) (by decide)

/-! ### C6: recent_average is the window mean, with 0 for no data -/

/-- C6: `get_recent_latency` returns the mean latency of the events of
that endpoint inside the trailing window whose status code is below 500,
and returns the sentinel 0 — it is total, never an error or NaN — when
no such event exists. -/
theorem recent_average_mean_or_zero (events : List EventSchema) (endpoint : String)
    (now minutes : Nat) :
    get_recent_latency events endpoint now minutes =
      if latencyRows events endpoint now minutes = [] then 0
      else ((latencyRows events endpoint now minutes).map (·.latency_ms)).sum /
        ((latencyRows events endpoint now minutes).length : ℚ) := by
  unfold get_recent_latency
  by_cases h : latencyRows events endpoint now minutes = []
  · simp [h]
  · rw [if_neg h]
    simp only [List.isEmpty_iff, h, if_false, if_neg h]
    split_ifs with hv
    · exact hv.symm
    · rfl

/-! ### C4: archive round-trip (all fields except a None error message) -/

lemma dedupFirst_mem {α : Type} [DecidableEq α] (l : List α) (a : α) :
    a ∈ dedupFirst l ↔ a ∈ l := by
  induction l with
  | nil => simp [dedupFirst]
  | cons k ks ih =>
    by_cases hak : a = k
    · simp [dedupFirst, hak]
    · simp [dedupFirst, List.mem_filter, hak, ih]

lemma dedupFirst_nodup {α : Type} [DecidableEq α] (l : List α) : (dedupFirst l).Nodup := by
  induction l with
  | nil => simp [dedupFirst]
  | cons k ks ih =>
    rw [dedupFirst, List.nodup_cons]
    constructor
    · intro hcon
      have := (List.mem_filter.mp hcon).2
      simp at this
    · exact List.Nodup.filter _ ih

/-- Event with an absent error message, used in the C4 counterexample. -/
def eC4 : EventSchema :=
  ⟨7250, "/checkout", "GET", 200, 42, 3, 7, "u1", "s1", 128, "abc123", none⟩

/-- C4 counterexample: flushing an event whose `error_message` is None
and scanning it back yields a record whose `error_message` is the empty
string, not None — so not every field round-trips equal (the write path
stores `error_message or ""` into a non-null column). -/
theorem archive_roundtrip_counterexample :
    (read_historical (flush [] [eC4]) "/checkout" 7300 1).map (·.error_message) = [some ""] ∧
    eC4.error_message = none := by
  constructor
  · rfl
  · rfl

/-- C4 (amended): an Event Record appended in a batch and scanned back
for its endpoint over a time range covering its timestamp is returned
with every field equal to the original except `error_message`, which
comes back as the original string when one was present and as the empty
string when the original had none. -/
theorem archive_roundtrip_amended (store : ColdStoreData) (events : List EventSchema)
    (e : EventSchema) (endpoint : String) (now hours_back : Nat)
    (he : e ∈ events) (hep : e.endpoint = endpoint)
    (hk : partitionKeyOf e ∈ hoursScanned now hours_back) :
    writeRow e ∈ read_historical (flush store events) endpoint now hours_back ∧
    (writeRow e).timestamp = e.timestamp ∧
    (writeRow e).endpoint = e.endpoint ∧
    (writeRow e).method = e.method ∧
    (writeRow e).status_code = e.status_code ∧
    (writeRow e).latency_ms = e.latency_ms ∧
    (writeRow e).db_query_count = e.db_query_count ∧
    (writeRow e).db_query_time_ms = e.db_query_time_ms ∧
    (writeRow e).user_id = e.user_id ∧
    (writeRow e).session_id = e.session_id ∧
    (writeRow e).memory_mb = e.memory_mb ∧
    (writeRow e).commit_sha = e.commit_sha ∧
    (writeRow e).error_message = some (e.error_message.getD "") := by
  refine ⟨?_, rfl, rfl, rfl, rfl, rfl, rfl, rfl, rfl, rfl, rfl, rfl, rfl⟩
  unfold read_historical
  refine List.mem_flatMap.mpr ⟨partitionKeyOf e, hk, ?_⟩
  refine List.mem_flatMap.mpr
    ⟨(events.filter fun x => partitionKeyOf x = partitionKeyOf e).map writeRow, ?_, ?_⟩
  · unfold filesAt flush
    rw [if_neg (by simp [List.isEmpty_iff]; exact List.ne_nil_of_mem he)]
    apply List.mem_map.mpr
    refine ⟨(partitionKeyOf e,
      (events.filter fun x => partitionKeyOf x = partitionKeyOf e).map writeRow), ?_, rfl⟩
    apply List.mem_filter.mpr
    refine ⟨List.mem_append_right _ ?_, by simp⟩
    apply List.mem_map.mpr
    refine ⟨partitionKeyOf e, ?_, rfl⟩
    exact (dedupFirst_mem _ _).mpr (List.mem_map.mpr ⟨e, he, rfl⟩)
  · apply List.mem_filter.mpr
    constructor
    · exact List.mem_map.mpr ⟨e, List.mem_filter.mpr ⟨he, by simp⟩, rfl⟩
    · show decide ((writeRow e).endpoint = endpoint) = true
      simp [writeRow, hep]

/-- Event with a present error message, used in the C4 witness. -/
def eC4w : EventSchema :=
  ⟨7250, "/checkout", "GET", 200, 42, 3, 7, "u1", "s1", 128, "abc123", some "boom"⟩

theorem archive_roundtrip_amended_witness :
    writeRow eC4w ∈ read_historical (flush [] [eC4w]) "/checkout" 7300 1 ∧
    (writeRow eC4w).error_message = some (eC4w.error_message.getD "") :=
  have h := archive_roundtrip_amended [] [eC4w] eC4w "/checkout" 7300 1
    (List.mem_singleton.mpr rfl) rfl (by decide)
  ⟨h.1, h.2.2.2.2.2.2.2.2.2.2.2.2⟩

/-! ### C9: historical scans touch exactly the requested hour partitions -/

/-- C9: `read_historical` visits exactly the partitions of the hours
`now, now-1, ..., now-(hours_back-1)` — with `hours_back = 1` only the
single current-hour partition — and its result depends only on the files
in those partitions: two archives agreeing there are read identically. -/
theorem scan_partition_pruning (store store2 : ColdStoreData) (endpoint : String)
    (now hours_back : Nat) (hnow : (hours_back - 1) * 3600 ≤ now)
    (hagree : ∀ k ∈ hoursScanned now hours_back, filesAt store k = filesAt store2 k) :
    hoursScanned now hours_back = (List.range hours_back).map (fun ha => now / 3600 - ha) ∧
    hoursScanned now 1 = [now / 3600] ∧
    read_historical store endpoint now hours_back =
      read_historical store2 endpoint now hours_back := by
  refine ⟨?_, ?_, ?_⟩
  · unfold hoursScanned
    apply List.map_congr_left
    intro ha hmem
    have h1 : ha < hours_back := List.mem_range.mp hmem
    have h2 : 3600 * ha ≤ now := by
      calc 3600 * ha ≤ (hours_back - 1) * 3600 := by
            rw [Nat.mul_comm]
            exact Nat.mul_le_mul_right 3600 (by omega)
        _ ≤ now := hnow
    rw [Nat.mul_comm ha 3600]
    exact Nat.sub_mul_div now 3600 ha h2
  · unfold hoursScanned
    rw [show List.range 1 = [0] from rfl]
    simp
  · unfold read_historical
    have hgen : ∀ ks : List Nat, (∀ k ∈ ks, filesAt store k = filesAt store2 k) →
        (ks.flatMap fun k => (filesAt store k).flatMap fun file =>
          file.filter fun row => row.endpoint = endpoint) =
        (ks.flatMap fun k => (filesAt store2 k).flatMap fun file =>
          file.filter fun row => row.endpoint = endpoint) := by
      intro ks hks
      induction ks with
      | nil => rfl
      | cons k2 kt ih =>
        rw [List.flatMap_cons, List.flatMap_cons, hks k2 (List.mem_cons_self k2 kt),
          ih (fun x hx => hks x (List.mem_cons_of_mem k2 hx))]
    exact hgen _ hagree

theorem scan_partition_pruning_witness :
    hoursScanned 7200 2 = (List.range 2).map (fun ha => 7200 / 3600 - ha) ∧
    hoursScanned 7200 1 = [7200 / 3600] ∧
    read_historical [(2, [eC4])] "/checkout" 7200 2 =
      read_historical [(2, [eC4])] "/checkout" 7200 2 :=
  scan_partition_pruning [(2, [eC4])] [(2, [eC4])] "/checkout" 7200 2 (by decide)
    (fun _ _ => rfl)

/-! ### C5 and C8: baseline computation -/

/-- The fold that upserts one baseline row per eligible group, as
performed by `compute_baseline` when at least 50 records exist. -/
lemma baseline_foldl_skip (hist : List EventSchema) (endpoint : String) (k : Nat × Nat)
    (keys : List (Nat × Nat)) (kg : Baselines)
    (hk : ∀ k2 ∈ keys, k2 = k → (groupLatencies hist k2).length < 5) :
    (keys.foldl
      (fun kg2 k2 =>
        if (groupLatencies hist k2).length < 5 then kg2
        else update_baseline kg2 endpoint k2.1 k2.2 (groupMetrics hist k2))
      kg) (endpoint, k.1, k.2) = kg (endpoint, k.1, k.2) := by
  induction keys generalizing kg with
  | nil => rfl
  | cons k2 ks ih =>
    rw [List.foldl_cons, ih _ (fun x hx hxk => hk x (List.mem_cons_of_mem k2 hx) hxk)]
    by_cases h5 : (groupLatencies hist k2).length < 5
    · rw [if_pos h5]
    · rw [if_neg h5]
      have hk2 : k2 ≠ k := fun hcon => h5 (hk k2 (List.mem_cons_self k2 ks) hcon)
      show (if (endpoint, k.1, k.2) = (endpoint, k2.1, k2.2) then some (groupMetrics hist k2)
        else kg (endpoint, k.1, k.2)) = kg (endpoint, k.1, k.2)
      rw [if_neg]
      intro hcon
      apply hk2
      have h1 : k.1 = k2.1 := congrArg (fun p => p.2.1) hcon
      have h2 : k.2 = k2.2 := congrArg (fun p => p.2.2) hcon
      calc k2 = (k2.1, k2.2) := rfl
        _ = (k.1, k.2) := by rw [h1, h2]
        _ = k := rfl

lemma baseline_foldl_mem (hist : List EventSchema) (endpoint : String) (k : Nat × Nat)
    (keys : List (Nat × Nat)) (kg : Baselines)
    (hk : k ∈ keys) (hnd : keys.Nodup) (h5 : ¬ (groupLatencies hist k).length < 5) :
    (keys.foldl
      (fun kg2 k2 =>
        if (groupLatencies hist k2).length < 5 then kg2
        else update_baseline kg2 endpoint k2.1 k2.2 (groupMetrics hist k2))
      kg) (endpoint, k.1, k.2) = some (groupMetrics hist k) := by
  induction keys generalizing kg with
  | nil => cases hk
  | cons k2 ks ih =>
    rw [List.foldl_cons]
    rcases List.mem_cons.mp hk with hke | hks
    · subst hke
      rw [baseline_foldl_skip hist endpoint k ks _
        (fun x hx hxk => absurd (hxk ▸ hx) (List.nodup_cons.mp hnd).1)]
      rw [if_neg h5]
      show (if (endpoint, k.1, k.2) = (endpoint, k.1, k.2) then some (groupMetrics hist k)
        else kg (endpoint, k.1, k.2)) = some (groupMetrics hist k)
      rw [if_pos rfl]
    · exact ih _ hks (List.nodup_cons.mp hnd).2

/-- C5: with at least 50 historical records, every (hour, weekday) group
with at least 5 samples gets a baseline row whose p95 latency is the
element at the nearest-rank index `floor(0.95 * count)` of the group's
latencies sorted ascending (an in-bounds index); in particular the
latencies `[10, 12, 14, 16, 18, 20, 100]` give p95 = 100. -/
theorem baseline_p95_nearest_rank (kg : Baselines) (endpoint : String)
    (hist : List EventSchema) (now : Nat) (k : Nat × Nat)
    (h50 : 50 ≤ hist.length) (h5 : 5 ≤ (groupLatencies hist k).length) :
    compute_baseline kg endpoint hist now (endpoint, k.1, k.2) =
      some (groupMetrics hist k) ∧
    (groupMetrics hist k).p95_latency_ms =
      (List.insertionSort (fun a b => a ≤ b) (groupLatencies hist k)).getD
        (p95_index (groupLatencies hist k).length) 0 ∧
    p95_index (groupLatencies hist k).length =
      (⌊((groupLatencies hist k).length : ℚ) * (95 / 100)⌋).toNat ∧
    p95_index (groupLatencies hist k).length < (groupLatencies hist k).length ∧
    p95 [10, 12, 14, 16, 18, 20, 100] = 100 := by
  refine ⟨?_, rfl, rfl, ?_, ?_⟩
  · unfold compute_baseline
    rw [if_neg (by omega)]
    have hne : hist.filter (fun ev => groupKey ev = k) ≠ [] := by
      intro hcon
      rw [groupLatencies, hcon] at h5
      simp at h5
    obtain ⟨ev, hev⟩ := List.exists_mem_of_ne_nil _ hne
    have hkmem : k ∈ dedupFirst (hist.map groupKey) := by
      refine (dedupFirst_mem _ _).mpr (List.mem_map.mpr ⟨ev, (List.mem_filter.mp hev).1, ?_⟩)
      have := (List.mem_filter.mp hev).2
      simpa using this
    exact baseline_foldl_mem hist endpoint k _ kg hkmem (dedupFirst_nodup _) (by omega)
  · have h1 : 1 ≤ (groupLatencies hist k).length := by omega
    unfold p95_index
    have hfl : ⌊((groupLatencies hist k).length : ℚ) * (95 / 100)⌋ <
        ((groupLatencies hist k).length : ℤ) := by
      rw [Int.floor_lt]
      have hn : (1 : ℚ) ≤ ((groupLatencies hist k).length : ℚ) := by exact_mod_cast h1
      push_cast
      nlinarith
    omega
  · have h7 : p95_index ([10, 12, 14, 16, 18, 20, 100] : List ℚ).length = 6 := by
      have hfl : ⌊(([10, 12, 14, 16, 18, 20, 100] : List ℚ).length : ℚ) * (95 / 100)⌋ = 6 := by
        norm_num
      unfold p95_index
      rw [hfl]
      rfl
    unfold p95
    rw [h7]
    decide

/-- Event in group (0, 3), used by the baseline witnesses. -/
def evC5a : EventSchema := ⟨0, "/a", "GET", 200, 5, 1, 1, "u", "s", 10, "c", none⟩

/-- Event in group (14, 3) with a chosen latency, used by the baseline
witnesses. -/
def evC5b (lat : ℚ) : EventSchema := ⟨50400, "/a", "GET", 200, lat, 1, 1, "u", "s", 10, "c", none⟩

/-- Fifty historical records: 43 in group (0, 3) and the seven spec
example latencies in group (14, 3). -/
def histC5 : List EventSchema :=
  List.replicate 43 evC5a ++
    [evC5b 10, evC5b 12, evC5b 14, evC5b 16, evC5b 18, evC5b 20, evC5b 100]

theorem baseline_p95_nearest_rank_witness :
    compute_baseline (fun _ => none) "/a" histC5 0 ("/a", 14, 3) =
      some (groupMetrics histC5 (14, 3)) ∧
    p95 [10, 12, 14, 16, 18, 20, 100] = 100 :=
  have h := baseline_p95_nearest_rank (fun _ => none) "/a" histC5 0 (14, 3)
    (by decide) (by decide)
  ⟨h.1, h.2.2.2.2⟩

/-- C8: with fewer than 50 historical records, `compute_baseline` writes
the conservative default row (sample size 0) at the current
(hour, weekday) key instead of failing, leaving every other key
unchanged; with 50 or more records, a group with fewer than 5 samples is
skipped, leaving its key's existing row (if any) unchanged. -/
theorem baseline_default_and_skip (kg : Baselines) (endpoint : String)
    (hist hist2 : List EventSchema) (now : Nat) (k : Nat × Nat) (q : String × Nat × Nat)
    (hlt : hist.length < 50) (hge : 50 ≤ hist2.length)
    (h5 : (groupLatencies hist2 k).length < 5)
    (hq : q ≠ (endpoint, hourOfDay now, weekdayOf now)) :
    compute_baseline kg endpoint hist now (endpoint, hourOfDay now, weekdayOf now) =
      some DEFAULT_BASELINE ∧
    DEFAULT_BASELINE.sample_size = 0 ∧
    compute_baseline kg endpoint hist now q = kg q ∧
    compute_baseline kg endpoint hist2 now (endpoint, k.1, k.2) =
      kg (endpoint, k.1, k.2) := by
  refine ⟨?_, rfl, ?_, ?_⟩
  · unfold compute_baseline
    rw [if_pos hlt]
    unfold set_default_baseline update_baseline
    simp
  · unfold compute_baseline
    rw [if_pos hlt]
    unfold set_default_baseline update_baseline
    simp [hq]
  · unfold compute_baseline
    rw [if_neg (by omega)]
    exact baseline_foldl_skip hist2 endpoint k _ kg (fun x _ hxk => hxk ▸ h5)

theorem baseline_default_and_skip_witness :
    compute_baseline (fun _ => none) "/a" [] 0 ("/a", hourOfDay 0, weekdayOf 0) =
      some DEFAULT_BASELINE ∧
    compute_baseline (fun _ => none) "/a" histC5 0 ("/a", 5, 5) =
      (fun _ => (none : Option BaselineMetrics)) ("/a", 5, 5) :=
  have h := baseline_default_and_skip (fun _ => none) "/a" [] histC5 0 (5, 5) ("/b", 0, 0)
    (by decide) (by decide) (by decide) (by decide)
  ⟨h.1, h.2.2.2⟩

end Argus
